import Mathlib

/-!
Verification of the rally race-simulation and settlement core of the
Bootcamp Rally Racing Management App.

The simulator (`simulate_time_minutes`) and the settlement pipeline
(entry fees, all-DNF rescue, ranking, prizes, result rows) are embedded
from `src/streamlit_app.py`; the persistence layer (`record_transaction`,
`create_race`, `insert_race_result`) from `src/snowflake_utils.py`.
Python floats are modelled as rationals; every random draw is passed in
explicitly (per-segment stream `rv`, reliability draw, finish jitter,
rescue fallback), so the stochastic program becomes a deterministic
function of its draws.
-/

unseal Rat.add Rat.mul Rat.inv Rat.sub Rat.ofScientific

namespace Rally

/-! ## Race simulator (src/streamlit_app.py, `simulate_time_minutes`) -/

/-- Track segments `(length_km, speed_factor, handling_factor)` for a preset;
any name other than the two special ones selects the mixed profile. -/
def segmentsFor (preset : String) (distance_km : ℚ) : List (ℚ × ℚ × ℚ) :=
  if preset = "Fast asphalt" then
    [(distance_km, 1.05, 1.0)]
  else if preset = "Gravel twisty" then
    [(distance_km * 0.6, 0.8, 0.9), (distance_km * 0.4, 0.7, 0.85)]
  else
    [(distance_km * 0.4, 0.95, 0.98),
     (distance_km * 0.3, 0.85, 0.92),
     (distance_km * 0.3, 0.75, 0.9)]

/-- Handling scale from 0.5 (handling 50) to 1.0 (handling 100). -/
def handling_scale (handling : ℤ) : ℚ :=
  0.5 + ((max 50 (min 100 handling) - 50 : ℤ) : ℚ) / 100.0

/-- Acceleration influences pace; faster accel yields a slight boost. -/
def accel_scale (accel_0_100_s : ℚ) : ℚ :=
  max 0.9 (min 1.05 (1.0 + (6.0 - accel_0_100_s) * 0.02))

/-- Effective speed on one segment, floored at 60 km/h. -/
def segment_speed (base_speed hsc asc speed_factor handling_factor random_variation : ℚ) : ℚ :=
  max 60.0 (base_speed * hsc * asc * speed_factor * handling_factor * random_variation)

/-- The segment loop: accumulates minutes, drawing `rv i` on the i-th segment. -/
def simLoop (base hsc asc : ℚ) (rv : ℕ → ℚ) : ℕ → ℚ → List (ℚ × ℚ × ℚ) → ℚ
  | _, minutes, [] => minutes
  | i, minutes, (length_km, speed_factor, handling_factor) :: rest =>
      simLoop base hsc asc rv (i + 1)
        (minutes + length_km / segment_speed base hsc asc speed_factor handling_factor (rv i) * 60.0)
        rest

/-- Accumulated minutes over all segments, before the reliability trial. -/
def baseMinutes (top_speed_kmh accel_0_100_s : ℚ) (handling : ℤ) (distance_km : ℚ)
    (preset : String) (rv : ℕ → ℚ) : ℚ :=
  simLoop top_speed_kmh (handling_scale handling) (accel_scale accel_0_100_s) rv 0 0.0
    (segmentsFor preset distance_km)

/-- The random draws one simulation consumes: the per-segment stream, the
reliability draw, and the finish-line jitter. -/
structure SimDraws where
  rv : ℕ → ℚ
  relDraw : ℚ
  jitter : ℚ

/-- Full simulation of one vehicle: returns (minutes, dnf). -/
def simulate_time_minutes (top_speed_kmh accel_0_100_s : ℚ) (handling : ℤ)
    (reliability distance_km : ℚ) (preset : String) (d : SimDraws) : ℚ × Bool :=
  let minutes := baseMinutes top_speed_kmh accel_0_100_s handling distance_km preset d.rv
  let finish_probability := max 0.05 (min 0.99 reliability)
  if d.relDraw > finish_probability then (minutes, true) else (minutes * d.jitter, false)

/-! ## Spec-side reference definitions (from the wording of the spec, for
the refinement claims; compared against the source embedding above) -/

/-- Handling scale as the spec words it: a linear map of the clamped
handling value from [50,100] onto [0.5,1.0]. -/
def handlingScaleSpec (handling : ℤ) : ℚ :=
  0.5 + (1.0 - 0.5) * ((((max 50 (min 100 handling) : ℤ) : ℚ) - 50) / (100 - 50))

/-- Acceleration scale as the spec words it. -/
def accelScaleSpec (accel : ℚ) : ℚ :=
  max 0.90 (min 1.05 (1.0 + (6.0 - accel) * 0.02))

/-- Effective segment speed as the spec words it, floored at 60 km/h. -/
def segmentSpeedSpec (top hsc asc sf hf rm : ℚ) : ℚ :=
  max 60.0 (top * hsc * asc * sf * hf * rm)

/-- Hours per segment, summed across segments (spec: sum hours first). -/
def hoursSum (top hsc asc : ℚ) (rv : ℕ → ℚ) : ℕ → List (ℚ × ℚ × ℚ) → ℚ
  | _, [] => 0
  | i, (len, sf, hf) :: rest =>
      len / segmentSpeedSpec top hsc asc sf hf (rv i) + hoursSum top hsc asc rv (i + 1) rest

/-- Accumulated time per the spec: total hours, then converted to minutes. -/
def baseMinutesSpec (top accel : ℚ) (handling : ℤ) (distance_km : ℚ)
    (preset : String) (rv : ℕ → ℚ) : ℚ :=
  hoursSum top (handlingScaleSpec handling) (accelScaleSpec accel) rv 0
    (segmentsFor preset distance_km) * 60.0

/-- Finish probability per the spec: reliability clamped to [0.05, 0.99]. -/
def finishProbabilitySpec (reliability : ℚ) : ℚ :=
  min (max reliability 0.05) 0.99

/-! ## Settlement data model -/

structure Car where
  carId : ℕ
  carName : String
  teamId : ℕ
  teamName : String
  topSpeed : ℚ
  accel : ℚ
  handling : ℤ
  reliability : ℚ
deriving DecidableEq, Inhabited

/-- One per-vehicle outcome dict of the results list. -/
structure RaceEntry where
  carId : ℕ
  carName : String
  teamId : ℕ
  teamName : String
  timeMin : Option ℚ
  dnf : Bool
  position : Option ℕ
deriving DecidableEq, Inhabited

/-- The results-collection loop: one simulation per roster entry, time kept
only when the vehicle finished. -/
def collectResults (distance_km : ℚ) (preset : String) (roster : List Car)
    (draws : ℕ → SimDraws) : List RaceEntry :=
  (List.range roster.length).map (fun i =>
    let car := roster.getD i default
    let md := simulate_time_minutes car.topSpeed car.accel car.handling car.reliability
      distance_km preset (draws i)
    { carId := car.carId, carName := car.carName, teamId := car.teamId,
      teamName := car.teamName,
      timeMin := if md.2 then none else some md.1, dnf := md.2, position := none })

/-- Python key `results[i]["TIME_MIN"] or float("inf")`: both `None` and the
float `0.0` are falsy, so both map to infinity. -/
def rescueKey (r : RaceEntry) : WithTop ℚ :=
  match r.timeMin with
  | none => ⊤
  | some t => if t = 0 then ⊤ else (t : WithTop ℚ)

/-- Python `min(range(len(results)), key=...)`: first index with minimal key. -/
def argminGo (key : RaceEntry → WithTop ℚ) : List RaceEntry → ℕ → ℕ → WithTop ℚ → ℕ
  | [], _, bi, _ => bi
  | x :: xs, i, bi, bk =>
      if key x < bk then argminGo key xs (i + 1) i (key x)
      else argminGo key xs (i + 1) bi bk

def argminIdx (key : RaceEntry → WithTop ℚ) : List RaceEntry → ℕ
  | [] => 0
  | x :: xs => argminGo key xs 1 0 (key x)

/-- In-place update of the list cell at one index. -/
def modifyIdx {α : Type} (f : α → α) : ℕ → List α → List α
  | _, [] => []
  | 0, x :: xs => f x :: xs
  | n + 1, x :: xs => x :: modifyIdx f n xs

/-- The all-DNF rescue block: when every vehicle is DNF, flip the best-keyed
one to finished, giving it the fallback draw `fb` if it has no time. -/
def rescue (fb : ℚ) (results : List RaceEntry) : List RaceEntry :=
  if results.all (fun r => r.dnf) then
    modifyIdx (fun r => { r with dnf := false, timeMin := some (r.timeMin.getD fb) })
      (argminIdx rescueKey results) results
  else results

/-- Sort key of a results index: the finisher's time (finishers always carry
a time, so the default is never read). -/
def timeKey (rs : List RaceEntry) (i : ℕ) : ℚ :=
  ((rs.getD i default).timeMin).getD 0

/-- Indices of the non-DNF entries, in roster order. -/
def finisherIdxs (rs : List RaceEntry) : List ℕ :=
  (List.range rs.length).filter (fun i => !(rs.getD i default).dnf)

/-- Finisher indices sorted ascending by time; insertion sort with a `≤` key
is stable, matching Python's stable `list.sort(key=...)`. -/
def sortedIdxs (rs : List RaceEntry) : List ℕ :=
  List.insertionSort (fun i j => timeKey rs i ≤ timeKey rs j) (finisherIdxs rs)

/-- The ranking block: finishers get 1-based positions along the sorted
order; DNF entries keep no position. -/
def assignPositions (rs : List RaceEntry) : List RaceEntry :=
  (List.range rs.length).map (fun i =>
    let r := rs.getD i default
    if r.dnf then { r with position := none }
    else { r with position := some (List.indexOf i (sortedIdxs rs) + 1) })

/-- Tag of a settlement transaction (the `reason` text of the source). -/
inductive Reason where
  | entryFee (raceName : String)
  | prize (position : ℕ) (raceName : String)
deriving DecidableEq

/-- A settlement-level transaction request. -/
structure Txn where
  teamId : ℕ
  amount : ℚ
  reason : Reason
deriving DecidableEq

/-- Entry-fee debits: one per distinct team id, ascending. -/
def entryFeeTxns (raceName : String) (entry_fee : ℚ) (roster : List Car) : List Txn :=
  (List.insertionSort (fun a b => a ≤ b) ((roster.map (fun c => c.teamId)).dedup)).map
    (fun team_id => { teamId := team_id, amount := -entry_fee, reason := Reason.entryFee raceName })

/-- Prize credits: ranks 1..min(3, finishers) with a positive configured prize. -/
def prizeTxnsOf (raceName : String) (prizes : List ℚ) (rs : List RaceEntry) : List Txn :=
  (List.range (min 3 (sortedIdxs rs).length)).filterMap (fun idx =>
    let amount := prizes.getD idx 0
    if amount > 0 then
      some { teamId := (rs.getD ((sortedIdxs rs).getD idx 0) default).teamId,
             amount := amount, reason := Reason.prize (idx + 1) raceName }
    else none)

structure RaceRec where
  raceName : String
  distance : ℚ
  entryFee : ℚ
  prizeFirst : ℚ
  prizeSecond : ℚ
  prizeThird : ℚ
deriving DecidableEq, Inhabited

/-- Everything one settlement produces, in emission order. -/
structure SettleOut where
  race : RaceRec
  entryTxns : List Txn
  prizeTxns : List Txn
  results : List RaceEntry
deriving DecidableEq

/-- The settlement pipeline on a non-empty roster. -/
def settleCore (raceName : String) (distance_km entry_fee prize_first prize_second prize_third : ℚ)
    (roster : List Car) (preset : String) (draws : ℕ → SimDraws) (fb : ℚ) : SettleOut :=
  let rescued := rescue fb (collectResults distance_km preset roster draws)
  { race := ⟨raceName, distance_km, entry_fee, prize_first, prize_second, prize_third⟩,
    entryTxns := entryFeeTxns raceName entry_fee roster,
    prizeTxns := prizeTxnsOf raceName [prize_first, prize_second, prize_third] rescued,
    results := assignPositions rescued }

/-- The start-race handler: aborts on an empty roster before anything is
created, otherwise runs the settlement pipeline. -/
def settle (raceName : String) (distance_km entry_fee p1 p2 p3 : ℚ) (roster : List Car)
    (preset : String) (draws : ℕ → SimDraws) (fb : ℚ) : Except String SettleOut :=
  if roster.isEmpty then
    Except.error "No cars available. Please add cars first."
  else
    Except.ok (settleCore raceName distance_km entry_fee p1 p2 p3 roster preset draws fb)

/-! ## Persistence layer (src/snowflake_utils.py) -/

structure TeamRow where
  teamId : ℕ
  teamName : String
  members : String
  budget : Option ℚ
deriving DecidableEq, Inhabited

structure TxnRow where
  teamId : ℕ
  raceId : Option ℕ
  amount : ℚ
  currency : String
  reason : Reason
deriving DecidableEq

structure ResultRow where
  raceId : ℕ
  carId : ℕ
  teamId : ℕ
  finishTimeMinutes : Option ℚ
  status : String
  position : Option ℕ
deriving DecidableEq

structure DBState where
  teams : List TeamRow
  transactions : List TxnRow
  races : List RaceRec
  raceResults : List ResultRow
deriving DecidableEq

/-- `record_transaction`: append one ledger row, then
`UPDATE CORE.TEAMS SET BUDGET = COALESCE(BUDGET, 0) + amount WHERE TEAM_ID = team_id`. -/
def record_transaction (db : DBState) (team_id : ℕ) (race_id : Option ℕ) (amount : ℚ)
    (reason : Reason) : DBState :=
  { db with
    transactions := db.transactions ++ [⟨team_id, race_id, amount, "USD", reason⟩],
    teams := db.teams.map (fun row =>
      if row.teamId = team_id then { row with budget := some (row.budget.getD 0 + amount) }
      else row) }

/-- One pending `record_transaction` call. -/
structure TxnOp where
  teamId : ℕ
  raceId : Option ℕ
  amount : ℚ
  reason : Reason
deriving DecidableEq

/-- A sequence of `record_transaction` calls, applied in order. -/
def applyTxns (db : DBState) : List TxnOp → DBState
  | [] => db
  | op :: ops => applyTxns (record_transaction db op.teamId op.raceId op.amount op.reason) ops

/-- `create_race`: insert the race row and return the fresh identifier. -/
def create_race (db : DBState) (race : RaceRec) : DBState × ℕ :=
  ({ db with races := db.races ++ [race] }, db.races.length)

/-- `insert_race_result`: append one result row. -/
def insert_race_result (db : DBState) (race_id car_id team_id : ℕ) (t : Option ℚ)
    (status : String) (pos : Option ℕ) : DBState :=
  { db with raceResults := db.raceResults ++ [⟨race_id, car_id, team_id, t, status, pos⟩] }

def txnToOp (race_id : ℕ) (t : Txn) : TxnOp :=
  ⟨t.teamId, some race_id, t.amount, t.reason⟩

/-- The full button handler: settle, then persist race, transactions and
result rows in source order; on the empty-roster error nothing is touched. -/
def start_race (db : DBState) (raceName : String) (distance_km entry_fee p1 p2 p3 : ℚ)
    (roster : List Car) (preset : String) (draws : ℕ → SimDraws) (fb : ℚ) : DBState :=
  match settle raceName distance_km entry_fee p1 p2 p3 roster preset draws fb with
  | Except.error _ => db
  | Except.ok out =>
      let created := create_race db out.race
      let db2 := applyTxns created.1 ((out.entryTxns ++ out.prizeTxns).map (txnToOp created.2))
      out.results.foldl (fun acc r =>
        insert_race_result acc created.2 r.carId r.teamId r.timeMin
          (if r.dnf then "DNF" else "FINISHED") r.position) db2

/-! ## Simulator lemmas -/

theorem handling_scale_eq_spec (h : ℤ) : handling_scale h = handlingScaleSpec h := by
  unfold handling_scale handlingScaleSpec
  push_cast
  ring

theorem accel_scale_eq_spec (a : ℚ) : accel_scale a = accelScaleSpec a := by
  norm_num [accel_scale, accelScaleSpec]

theorem segment_speed_eq_spec (b hsc asc sf hf rm : ℚ) :
    segment_speed b hsc asc sf hf rm = segmentSpeedSpec b hsc asc sf hf rm := rfl

theorem simLoop_eq_hoursSum (base hsc asc : ℚ) (rv : ℕ → ℚ) :
    ∀ (segs : List (ℚ × ℚ × ℚ)) (i : ℕ) (m : ℚ),
      simLoop base hsc asc rv i m segs = m + hoursSum base hsc asc rv i segs * 60.0
  | [], _, m => by simp [simLoop, hoursSum]
  | (len, sf, hf) :: rest, i, m => by
      rw [simLoop, hoursSum, simLoop_eq_hoursSum base hsc asc rv rest (i + 1)]
      rw [segment_speed_eq_spec]
      ring

theorem simulate_time_minutes_eq (top accel : ℚ) (h : ℤ) (rel d : ℚ) (preset : String)
    (ds : SimDraws) :
    simulate_time_minutes top accel h rel d preset ds =
      if ds.relDraw > max 0.05 (min 0.99 rel) then
        (baseMinutes top accel h d preset ds.rv, true)
      else (baseMinutes top accel h d preset ds.rv * ds.jitter, false) := rfl

theorem clamp_prob_comm (x : ℚ) : max 0.05 (min 0.99 x) = finishProbabilitySpec x := by
  unfold finishProbabilitySpec
  rcases le_total x (0.05 : ℚ) with h1 | h1 <;> rcases le_total x (0.99 : ℚ) with h2 | h2 <;>
    simp [min_def, max_def] <;> split_ifs <;> linarith

theorem hoursSum_nonneg (top hsc asc : ℚ) (rv : ℕ → ℚ) :
    ∀ (segs : List (ℚ × ℚ × ℚ)) (i : ℕ), (∀ s ∈ segs, 0 ≤ s.1) →
      0 ≤ hoursSum top hsc asc rv i segs
  | [], _, _ => le_refl 0
  | (len, sf, hf) :: rest, i, hpos => by
      rw [hoursSum]
      have h1 : 0 ≤ len := hpos (len, sf, hf) (List.mem_cons_self _ _)
      have h2 : (0 : ℚ) < segmentSpeedSpec top hsc asc sf hf (rv i) :=
        lt_of_lt_of_le (by norm_num) (le_max_left _ _)
      have h3 : 0 ≤ hoursSum top hsc asc rv (i + 1) rest :=
        hoursSum_nonneg top hsc asc rv rest (i + 1)
          (fun s hs => hpos s (List.mem_cons_of_mem _ hs))
      have h4 : 0 ≤ len / segmentSpeedSpec top hsc asc sf hf (rv i) := div_nonneg h1 h2.le
      linarith

theorem hoursSum_pos (top hsc asc : ℚ) (rv : ℕ → ℚ) (segs : List (ℚ × ℚ × ℚ)) (i : ℕ)
    (hne : segs ≠ []) (hpos : ∀ s ∈ segs, 0 < s.1) : 0 < hoursSum top hsc asc rv i segs := by
  match segs, hne with
  | (len, sf, hf) :: rest, _ =>
      rw [hoursSum]
      have h1 : 0 < len := hpos (len, sf, hf) (List.mem_cons_self _ _)
      have h2 : (0 : ℚ) < segmentSpeedSpec top hsc asc sf hf (rv i) :=
        lt_of_lt_of_le (by norm_num) (le_max_left _ _)
      have h3 : 0 ≤ hoursSum top hsc asc rv (i + 1) rest :=
        hoursSum_nonneg top hsc asc rv rest (i + 1)
          (fun s hs => (hpos s (List.mem_cons_of_mem _ hs)).le)
      have h4 : 0 < len / segmentSpeedSpec top hsc asc sf hf (rv i) := div_pos h1 h2
      linarith

theorem segmentsFor_nonempty (p : String) (d : ℚ) : segmentsFor p d ≠ [] := by
  unfold segmentsFor
  split_ifs <;> simp

theorem segmentsFor_lengths_pos (p : String) (d : ℚ) (hd : 0 < d) :
    ∀ s ∈ segmentsFor p d, 0 < s.1 := by
  unfold segmentsFor
  split_ifs <;> intro s hs <;> simp at hs <;>
    first
      | (subst hs; simpa using hd)
      | (rcases hs with hs | hs | hs <;> subst hs <;> simp <;> linarith)
      | (rcases hs with hs | hs <;> subst hs <;> simp <;> linarith)

theorem baseMinutes_pos (top accel : ℚ) (h : ℤ) (d : ℚ) (preset : String) (rv : ℕ → ℚ)
    (hd : 0 < d) : 0 < baseMinutes top accel h d preset rv := by
  unfold baseMinutes
  rw [simLoop_eq_hoursSum]
  have := hoursSum_pos top (handling_scale h) (accel_scale accel) rv
    (segmentsFor preset d) 0 (segmentsFor_nonempty preset d) (segmentsFor_lengths_pos preset d hd)
  linarith

/-! ## Claim C7 -/

/-- C7: the three named presets produce exactly the specified ordered
segment lists, every other preset name selects the mixed profile, and for
each preset the segment lengths sum to the total distance (equivalently,
the distance fractions sum to exactly 1). -/
theorem preset_segments_exact (d : ℚ) :
    segmentsFor "Fast asphalt" d = [(d, 1.05, 1.0)] ∧
    segmentsFor "Gravel twisty" d = [(d * 0.6, 0.8, 0.9), (d * 0.4, 0.7, 0.85)] ∧
    (∀ p : String, p ≠ "Fast asphalt" → p ≠ "Gravel twisty" →
      segmentsFor p d =
        [(d * 0.4, 0.95, 0.98), (d * 0.3, 0.85, 0.92), (d * 0.3, 0.75, 0.9)]) ∧
    (∀ p : String, ((segmentsFor p d).map (fun s => s.1)).sum = d) := by
  refine ⟨by simp [segmentsFor], by simp [segmentsFor], ?_, ?_⟩
  · intro p h1 h2
    simp [segmentsFor, h1, h2]
  · intro p
    unfold segmentsFor
    split_ifs <;> simp <;> ring

/-- Witness for C7: the mixed fallback is served for an unknown preset
name, and the gravel segment lengths sum to the full distance. -/
theorem preset_segments_exact_witness :
    segmentsFor "Rainy night" 100 =
      [(100 * 0.4, 0.95, 0.98), (100 * 0.3, 0.85, 0.92), (100 * 0.3, 0.75, 0.9)] ∧
    ((segmentsFor "Gravel twisty" 100).map (fun s => s.1)).sum = 100 :=
  ⟨(preset_segments_exact 100).2.2.1 "Rainy night" (by decide) (by decide),
   (preset_segments_exact 100).2.2.2 "Gravel twisty"⟩

/-! ## Claim C3 -/

/-- C3: given the per-segment draw stream, the accumulated simulated time
equals the spec's reference definition: clamped linear handling scale,
clamped acceleration scale, floored effective segment speeds, per-segment
hours summed across segments and then converted to minutes. -/
theorem simulated_time_matches_reference (top accel : ℚ) (h : ℤ) (d : ℚ)
    (preset : String) (rv : ℕ → ℚ) :
    baseMinutes top accel h d preset rv = baseMinutesSpec top accel h d preset rv := by
  unfold baseMinutes baseMinutesSpec
  rw [simLoop_eq_hoursSum, handling_scale_eq_spec, accel_scale_eq_spec]
  ring

/-! ## Claim C6 -/

/-- C6: the DNF decision is a single Bernoulli trial — the vehicle is DNF
iff the reliability draw exceeds the reliability clamped to [0.05, 0.99]
(so reliability 1 gives finish probability 0.99, never 1), and the extra
finish-line jitter multiplies the time exactly when the vehicle is not
DNF. -/
theorem reliability_bernoulli_and_jitter (top accel : ℚ) (h : ℤ) (rel d : ℚ)
    (preset : String) (ds : SimDraws) :
    ((simulate_time_minutes top accel h rel d preset ds).2 = true ↔
      finishProbabilitySpec rel < ds.relDraw) ∧
    finishProbabilitySpec 1 = 0.99 ∧
    finishProbabilitySpec rel < 1 ∧
    (simulate_time_minutes top accel h rel d preset ds).1 =
      (if (simulate_time_minutes top accel h rel d preset ds).2 = true then
        baseMinutes top accel h d preset ds.rv
       else baseMinutes top accel h d preset ds.rv * ds.jitter) := by
  have hclamp := clamp_prob_comm rel
  by_cases hc : ds.relDraw > max 0.05 (min 0.99 rel)
  · refine ⟨?_, by norm_num [finishProbabilitySpec], ?_, ?_⟩
    · rw [simulate_time_minutes_eq, if_pos hc, ← hclamp]
      simpa using hc
    · exact lt_of_le_of_lt (min_le_right _ _) (by norm_num)
    · rw [simulate_time_minutes_eq, if_pos hc]
      simp
  · refine ⟨?_, by norm_num [finishProbabilitySpec], ?_, ?_⟩
    · rw [simulate_time_minutes_eq, if_neg hc, ← hclamp]
      simpa using hc
    · exact lt_of_le_of_lt (min_le_right _ _) (by norm_num)
    · rw [simulate_time_minutes_eq, if_neg hc]
      simp

/-! ## Claim C10 -/

/-- C10: with positive total distance, every segment's effective speed is
at least 60 km/h (so no division by zero can occur even for degenerate
vehicle attributes) and the simulated time is strictly positive, also when
the DNF flag is true. -/
theorem simulate_time_positive_total (top accel : ℚ) (h : ℤ) (rel d : ℚ) (preset : String)
    (ds : SimDraws) (hd : 0 < d) (hj1 : 0.98 ≤ ds.jitter) (hj2 : ds.jitter ≤ 1.05) :
    (∀ b hsc asc sf hf rm : ℚ, 60.0 ≤ segment_speed b hsc asc sf hf rm) ∧
    0 < (simulate_time_minutes top accel h rel d preset ds).1 := by
  refine ⟨fun b hsc asc sf hf rm => le_max_left _ _, ?_⟩
  have hbase := baseMinutes_pos top accel h d preset ds.rv hd
  by_cases hc : ds.relDraw > max 0.05 (min 0.99 rel)
  · rw [simulate_time_minutes_eq, if_pos hc]
    exact hbase
  · have hjpos : (0 : ℚ) < ds.jitter := lt_of_lt_of_le (by norm_num) hj1
    rw [simulate_time_minutes_eq, if_neg hc]
    exact mul_pos hbase hjpos

/-- Witness for C10: a degenerate car (zero top speed, negative handling
and reliability) still gets a strictly positive simulated time. -/
theorem simulate_time_positive_total_witness :
    0 < (simulate_time_minutes 0 0 (-7) (-1) 100 "Mixed (default)"
      ⟨fun _ => 1, 1, 1⟩).1 :=
  (simulate_time_positive_total 0 0 (-7) (-1) 100 "Mixed (default)"
    ⟨fun _ => 1, 1, 1⟩ (by decide) (by decide) (by decide)).2

/-! ## Persistence lemmas -/

theorem getD_map_of_lt {α β : Type} [Inhabited α] [Inhabited β] (l : List α) (f : α → β)
    (i : ℕ) (hi : i < l.length) : (l.map f).getD i default = f (l.getD i default) := by
  rw [List.getD_eq_getElem _ _ (by simpa using hi), List.getD_eq_getElem _ _ hi,
    List.getElem_map]

theorem record_transaction_teams_getD (db : DBState) (t : ℕ) (rid : Option ℕ) (a : ℚ)
    (reason : Reason) (i : ℕ) (hi : i < db.teams.length) :
    (record_transaction db t rid a reason).teams.getD i default =
      (if (db.teams.getD i default).teamId = t then
        { db.teams.getD i default with
            budget := some (((db.teams.getD i default).budget).getD 0 + a) }
       else db.teams.getD i default) := by
  have := getD_map_of_lt db.teams
    (fun row => if row.teamId = t then { row with budget := some (row.budget.getD 0 + a) }
      else row) i hi
  simpa [record_transaction] using this

theorem applyTxns_ledger (ops : List TxnOp) :
    ∀ (db : DBState) (i : ℕ), i < db.teams.length →
      (applyTxns db ops).transactions =
        db.transactions ++ ops.map (fun o => TxnRow.mk o.teamId o.raceId o.amount "USD" o.reason) ∧
      (applyTxns db ops).races = db.races ∧
      (applyTxns db ops).raceResults = db.raceResults ∧
      (applyTxns db ops).teams.length = db.teams.length ∧
      ((applyTxns db ops).teams.getD i default).teamId = (db.teams.getD i default).teamId ∧
      ((applyTxns db ops).teams.getD i default).teamName =
        (db.teams.getD i default).teamName ∧
      ((applyTxns db ops).teams.getD i default).members = (db.teams.getD i default).members ∧
      (((applyTxns db ops).teams.getD i default).budget).getD 0 =
        ((db.teams.getD i default).budget).getD 0 +
          ((ops.filter (fun o => o.teamId == (db.teams.getD i default).teamId)).map
            (fun o => o.amount)).sum := by
  induction ops with
  | nil => intro db i hi; simp [applyTxns]
  | cons op ops ih =>
      intro db i hi
      have hlen : (record_transaction db op.teamId op.raceId op.amount op.reason).teams.length
          = db.teams.length := by
        simp [record_transaction]
      have hi2 : i < (record_transaction db op.teamId op.raceId op.amount op.reason).teams.length := by
        rw [hlen]; exact hi
      have hrow := record_transaction_teams_getD db op.teamId op.raceId op.amount op.reason i hi
      have ihc := ih (record_transaction db op.teamId op.raceId op.amount op.reason) i hi2
      obtain ⟨h1, h2, h3, h4, h5, h6, h7, h8⟩ := ihc
      have htid : ((record_transaction db op.teamId op.raceId op.amount op.reason).teams.getD i
          default).teamId = (db.teams.getD i default).teamId := by
        rw [hrow]; split_ifs <;> rfl
      refine ⟨?_, ?_, ?_, ?_, ?_, ?_, ?_, ?_⟩
      · rw [show applyTxns db (op :: ops)
            = applyTxns (record_transaction db op.teamId op.raceId op.amount op.reason) ops
            from rfl, h1]
        simp [record_transaction]
      · rw [show applyTxns db (op :: ops)
            = applyTxns (record_transaction db op.teamId op.raceId op.amount op.reason) ops
            from rfl, h2]
        rfl
      · rw [show applyTxns db (op :: ops)
            = applyTxns (record_transaction db op.teamId op.raceId op.amount op.reason) ops
            from rfl, h3]
        rfl
      · rw [show applyTxns db (op :: ops)
            = applyTxns (record_transaction db op.teamId op.raceId op.amount op.reason) ops
            from rfl, h4, hlen]
      · rw [show applyTxns db (op :: ops)
            = applyTxns (record_transaction db op.teamId op.raceId op.amount op.reason) ops
            from rfl, h5, htid]
      · rw [show applyTxns db (op :: ops)
            = applyTxns (record_transaction db op.teamId op.raceId op.amount op.reason) ops
            from rfl, h6, hrow]
        split_ifs <;> rfl
      · rw [show applyTxns db (op :: ops)
            = applyTxns (record_transaction db op.teamId op.raceId op.amount op.reason) ops
            from rfl, h7, hrow]
        split_ifs <;> rfl
      · rw [show applyTxns db (op :: ops)
            = applyTxns (record_transaction db op.teamId op.raceId op.amount op.reason) ops
            from rfl, h8, htid, hrow]
        by_cases hmatch : (db.teams.getD i default).teamId = op.teamId
        · have hbeq : (op.teamId == (db.teams.getD i default).teamId) = true :=
            beq_iff_eq.2 hmatch.symm
          rw [if_pos hmatch, List.filter_cons, if_pos hbeq, List.map_cons, List.sum_cons]
          simp only [Option.getD_some]
          ring
        · have hbeq : (op.teamId == (db.teams.getD i default).teamId) = false := by
            rw [beq_eq_false_iff_ne]
            exact fun hcon => hmatch hcon.symm
          rw [if_neg hmatch, List.filter_cons, if_neg (by rw [hbeq]; exact Bool.false_ne_true)]

/-! ## Claim C8 -/

/-- C8: an empty roster aborts settlement before anything is persisted —
the settlement call returns the empty-roster error carrying no race
record, no transaction and no result, and the start-race handler leaves
the persistence state unchanged. -/
theorem empty_roster_aborts_settlement (raceName : String) (d fee p1 p2 p3 : ℚ)
    (preset : String) (draws : ℕ → SimDraws) (fb : ℚ) (db : DBState) (roster : List Car)
    (hempty : roster = []) :
    settle raceName d fee p1 p2 p3 roster preset draws fb =
      Except.error "No cars available. Please add cars first." ∧
    start_race db raceName d fee p1 p2 p3 roster preset draws fb = db := by
  subst hempty
  exact ⟨rfl, rfl⟩

/-- Witness for C8: a concrete store is untouched by a race with no cars. -/
theorem empty_roster_aborts_settlement_witness :
    settle "Rally" 100 1000 5000 3000 1000 [] "Mixed (default)"
        (fun _ => ⟨fun _ => 1, 1, 1⟩) 40 =
      Except.error "No cars available. Please add cars first." ∧
    start_race ⟨[⟨1, "Falcon", "Alice", some 100⟩], [], [], []⟩ "Rally" 100 1000 5000 3000 1000
        [] "Mixed (default)" (fun _ => ⟨fun _ => 1, 1, 1⟩) 40 =
      ⟨[⟨1, "Falcon", "Alice", some 100⟩], [], [], []⟩ :=
  empty_roster_aborts_settlement "Rally" 100 1000 5000 3000 1000 "Mixed (default)"
    (fun _ => ⟨fun _ => 1, 1, 1⟩) 40 ⟨[⟨1, "Falcon", "Alice", some 100⟩], [], [], []⟩ [] rfl

/-! ## Claim C9 -/

/-- C9: one `record_transaction` call appends exactly one ledger row and
adds the signed amount to the owning team's stored budget (a null budget
counts as 0), leaving every other team row and every other field
untouched; consequently, after any sequence of recorded transactions each
team's budget equals its starting budget plus the sum of the signed
amounts of its own transactions. -/
theorem record_transaction_ledger_frame :
    (∀ (db : DBState) (t : ℕ) (rid : Option ℕ) (a : ℚ) (reason : Reason) (i : ℕ),
      i < db.teams.length →
      (record_transaction db t rid a reason).transactions =
        db.transactions ++ [⟨t, rid, a, "USD", reason⟩] ∧
      (record_transaction db t rid a reason).races = db.races ∧
      (record_transaction db t rid a reason).raceResults = db.raceResults ∧
      (record_transaction db t rid a reason).teams.length = db.teams.length ∧
      ((record_transaction db t rid a reason).teams.getD i default).teamId =
        (db.teams.getD i default).teamId ∧
      ((record_transaction db t rid a reason).teams.getD i default).teamName =
        (db.teams.getD i default).teamName ∧
      ((record_transaction db t rid a reason).teams.getD i default).members =
        (db.teams.getD i default).members ∧
      ((db.teams.getD i default).teamId = t →
        ((record_transaction db t rid a reason).teams.getD i default).budget =
          some (((db.teams.getD i default).budget).getD 0 + a)) ∧
      ((db.teams.getD i default).teamId ≠ t →
        ((record_transaction db t rid a reason).teams.getD i default).budget =
          (db.teams.getD i default).budget)) ∧
    (∀ (db : DBState) (ops : List TxnOp) (i : ℕ), i < db.teams.length →
      (applyTxns db ops).transactions =
        db.transactions ++ ops.map (fun o => TxnRow.mk o.teamId o.raceId o.amount "USD" o.reason) ∧
      ((applyTxns db ops).teams.getD i default).teamId = (db.teams.getD i default).teamId ∧
      (((applyTxns db ops).teams.getD i default).budget).getD 0 =
        ((db.teams.getD i default).budget).getD 0 +
          ((ops.filter (fun o => o.teamId == (db.teams.getD i default).teamId)).map
            (fun o => o.amount)).sum) := by
  constructor
  · intro db t rid a reason i hi
    have hrow := record_transaction_teams_getD db t rid a reason i hi
    refine ⟨rfl, rfl, rfl, by simp [record_transaction], ?_, ?_, ?_, ?_, ?_⟩
    · rw [hrow]; split_ifs <;> rfl
    · rw [hrow]; split_ifs <;> rfl
    · rw [hrow]; split_ifs <;> rfl
    · intro hmatch; rw [hrow, if_pos hmatch]
    · intro hmatch; rw [hrow, if_neg hmatch]
  · intro db ops i hi
    have h := applyTxns_ledger ops db i hi
    exact ⟨h.1, h.2.2.2.2.1, h.2.2.2.2.2.2.2⟩

/-- Witness for C9: applying two concrete transactions to a one-team store
leaves that team's budget at its start plus the sum of its own amounts. -/
theorem record_transaction_ledger_frame_witness :
    (((applyTxns (⟨[⟨1, "Falcon", "Alice", some 100⟩], [], [], []⟩ : DBState)
        ([⟨1, none, 5, Reason.entryFee "R"⟩, ⟨2, none, 3, Reason.entryFee "R"⟩] :
          List TxnOp)).teams.getD 0 default).budget).getD 0 =
      (((⟨[⟨1, "Falcon", "Alice", some 100⟩], [], [], []⟩ : DBState).teams.getD 0
          default).budget).getD 0 +
        ((([⟨1, none, 5, Reason.entryFee "R"⟩, ⟨2, none, 3, Reason.entryFee "R"⟩] :
            List TxnOp).filter
          (fun o => o.teamId ==
            ((⟨[⟨1, "Falcon", "Alice", some 100⟩], [], [], []⟩ : DBState).teams.getD 0
              default).teamId)).map (fun o => o.amount)).sum :=
  (record_transaction_ledger_frame.2 (⟨[⟨1, "Falcon", "Alice", some 100⟩], [], [], []⟩ : DBState)
    ([⟨1, none, 5, Reason.entryFee "R"⟩, ⟨2, none, 3, Reason.entryFee "R"⟩] : List TxnOp)
    0 (by decide)).2.2

/-! ## Claim C4 -/

theorem sum_map_const {α : Type} (l : List α) (c : ℚ) : (l.map (fun _ => c)).sum = l.length * c := by
  induction l with
  | nil => simp
  | cons x xs ih =>
      simp [ih]
      ring

/-- C4: settlement on a non-empty roster emits exactly one entry-fee debit
of −entry_fee per distinct team in the roster, iterated in ascending
team-identifier order and tagged with the race name, so the total debited
is −entry_fee times the number of distinct teams (not per vehicle). -/
theorem entry_fee_per_distinct_team (raceName : String) (d fee p1 p2 p3 : ℚ)
    (roster : List Car) (preset : String) (draws : ℕ → SimDraws) (fb : ℚ)
    (hne : roster ≠ []) :
    settle raceName d fee p1 p2 p3 roster preset draws fb =
      Except.ok (settleCore raceName d fee p1 p2 p3 roster preset draws fb) ∧
    (∀ t ∈ (settleCore raceName d fee p1 p2 p3 roster preset draws fb).entryTxns,
      t.amount = -fee ∧ t.reason = Reason.entryFee raceName) ∧
    ((settleCore raceName d fee p1 p2 p3 roster preset draws fb).entryTxns.map
      (fun t => t.teamId)).Perm ((roster.map (fun c => c.teamId)).dedup) ∧
    List.Pairwise (fun a b => a < b)
      ((settleCore raceName d fee p1 p2 p3 roster preset draws fb).entryTxns.map
        (fun t => t.teamId)) ∧
    (settleCore raceName d fee p1 p2 p3 roster preset draws fb).entryTxns.length =
      ((roster.map (fun c => c.teamId)).dedup).length ∧
    ((settleCore raceName d fee p1 p2 p3 roster preset draws fb).entryTxns.map
      (fun t => t.amount)).sum =
      -(fee * ((roster.map (fun c => c.teamId)).dedup).length) := by
  have hok : settle raceName d fee p1 p2 p3 roster preset draws fb =
      Except.ok (settleCore raceName d fee p1 p2 p3 roster preset draws fb) := by
    match roster, hne with
    | c :: cs, _ => rfl
  have hentry : (settleCore raceName d fee p1 p2 p3 roster preset draws fb).entryTxns =
      (List.insertionSort (fun a b => a ≤ b) ((roster.map (fun c => c.teamId)).dedup)).map
        (fun team_id =>
          { teamId := team_id, amount := -fee, reason := Reason.entryFee raceName : Txn }) := rfl
  have hperm : (List.insertionSort (fun a b => a ≤ b)
      ((roster.map (fun c => c.teamId)).dedup)).Perm ((roster.map (fun c => c.teamId)).dedup) :=
    List.perm_insertionSort _ _
  have hnodup : (List.insertionSort (fun a b => a ≤ b)
      ((roster.map (fun c => c.teamId)).dedup)).Nodup :=
    hperm.symm.nodup ((roster.map (fun c => c.teamId)).nodup_dedup)
  have hsorted : (List.insertionSort (fun a b => a ≤ b)
      ((roster.map (fun c => c.teamId)).dedup)).Sorted (· ≤ ·) :=
    List.sorted_insertionSort _ _
  have hmapid : (settleCore raceName d fee p1 p2 p3 roster preset draws fb).entryTxns.map
      (fun t => t.teamId) =
      List.insertionSort (fun a b => a ≤ b) ((roster.map (fun c => c.teamId)).dedup) := by
    rw [hentry, List.map_map]
    exact List.map_id _
  refine ⟨hok, ?_, ?_, ?_, ?_, ?_⟩
  · intro t ht
    rw [hentry] at ht
    obtain ⟨tid, _, rfl⟩ := List.mem_map.1 ht
    exact ⟨rfl, rfl⟩
  · rw [hmapid]
    exact hperm
  · rw [hmapid]
    exact hsorted.lt_of_le hnodup
  · rw [hentry, List.length_map, List.length_insertionSort]
  · have hamt : (settleCore raceName d fee p1 p2 p3 roster preset draws fb).entryTxns.map
        (fun t => t.amount) =
        (List.insertionSort (fun a b => a ≤ b) ((roster.map (fun c => c.teamId)).dedup)).map
          (fun _ => -fee) := by
      rw [hentry, List.map_map]
      rfl
    rw [hamt, sum_map_const, List.length_insertionSort]
    ring

/-- Witness for C4: two cars of one team plus one car of another team pay
exactly two entry-fee debits. -/
theorem entry_fee_per_distinct_team_witness :
    ((settleCore "Rally" 100 1000 5000 3000 1000
      [⟨1, "Falcon X1", 1, "Falcon", 220, 5.2, 85, 0.92⟩,
       ⟨2, "Falcon X2", 1, "Falcon", 210, 5.6, 80, 0.88⟩,
       ⟨3, "Storm ZR", 2, "Thunder", 230, 4.9, 78, 0.85⟩]
      "Mixed (default)" (fun _ => ⟨fun _ => 1, 1, 1⟩) 40).entryTxns.map
        (fun t => t.amount)).sum =
      -(1000 * (([⟨1, "Falcon X1", 1, "Falcon", 220, 5.2, 85, 0.92⟩,
       ⟨2, "Falcon X2", 1, "Falcon", 210, 5.6, 80, 0.88⟩,
       ⟨3, "Storm ZR", 2, "Thunder", 230, 4.9, 78, 0.85⟩] : List Car).map
        (fun c => c.teamId)).dedup.length) :=
  (entry_fee_per_distinct_team "Rally" 100 1000 5000 3000 1000
    [⟨1, "Falcon X1", 1, "Falcon", 220, 5.2, 85, 0.92⟩,
     ⟨2, "Falcon X2", 1, "Falcon", 210, 5.6, 80, 0.88⟩,
     ⟨3, "Storm ZR", 2, "Thunder", 230, 4.9, 78, 0.85⟩]
    "Mixed (default)" (fun _ => ⟨fun _ => 1, 1, 1⟩) 40 (by decide)).2.2.2.2.2

/-! ## Settlement list lemmas -/

theorem range_getD (n i : ℕ) (hi : i < n) : (List.range n).getD i default = i := by
  rw [List.getD_eq_getElem _ _ (by simpa using hi)]
  simp

theorem getD_mem {α : Type} [Inhabited α] (l : List α) (i : ℕ) (hi : i < l.length) :
    l.getD i default ∈ l := by
  rw [List.getD_eq_getElem _ _ hi]
  exact List.getElem_mem hi

theorem countP_range_getD {α : Type} [Inhabited α] (rs : List α) (p : α → Bool) :
    (List.range rs.length).countP (fun i => p (rs.getD i default)) = rs.countP p := by
  induction rs with
  | nil => simp
  | cons x xs ih =>
      rw [List.length_cons, List.range_succ_eq_map, List.countP_cons]
      rw [List.countP_map]
      have hshift : (List.range xs.length).countP
          ((fun i => p ((x :: xs).getD i default)) ∘ Nat.succ) =
          (List.range xs.length).countP (fun i => p (xs.getD i default)) := by
        apply List.countP_congr
        intro i _
        rfl
      rw [hshift, ih, List.getD_cons_zero, List.countP_cons]

theorem collectResults_length (d : ℚ) (preset : String) (roster : List Car)
    (draws : ℕ → SimDraws) : (collectResults d preset roster draws).length = roster.length := by
  simp [collectResults]

theorem collectResults_mem (d : ℚ) (preset : String) (roster : List Car)
    (draws : ℕ → SimDraws) (r : RaceEntry) (hr : r ∈ collectResults d preset roster draws) :
    ∃ i, i < roster.length ∧
      r = { carId := (roster.getD i default).carId, carName := (roster.getD i default).carName,
            teamId := (roster.getD i default).teamId,
            teamName := (roster.getD i default).teamName,
            timeMin := if (simulate_time_minutes (roster.getD i default).topSpeed
                (roster.getD i default).accel (roster.getD i default).handling
                (roster.getD i default).reliability d preset (draws i)).2 then none
              else some (simulate_time_minutes (roster.getD i default).topSpeed
                (roster.getD i default).accel (roster.getD i default).handling
                (roster.getD i default).reliability d preset (draws i)).1,
            dnf := (simulate_time_minutes (roster.getD i default).topSpeed
                (roster.getD i default).accel (roster.getD i default).handling
                (roster.getD i default).reliability d preset (draws i)).2,
            position := none } := by
  obtain ⟨i, hi, rfl⟩ := List.mem_map.1 hr
  exact ⟨i, List.mem_range.1 hi, rfl⟩

theorem argminGo_const_top (key : RaceEntry → WithTop ℚ) :
    ∀ (l : List RaceEntry) (i bi : ℕ), (∀ x ∈ l, key x = ⊤) → argminGo key l i bi ⊤ = bi
  | [], _, _, _ => rfl
  | x :: xs, i, bi, h => by
      rw [argminGo, h x (List.mem_cons_self _ _), if_neg (lt_irrefl ⊤)]
      exact argminGo_const_top key xs (i + 1) bi (fun y hy => h y (List.mem_cons_of_mem _ hy))

theorem argminIdx_all_top (key : RaceEntry → WithTop ℚ) (l : List RaceEntry)
    (h : ∀ x ∈ l, key x = ⊤) : argminIdx key l = 0 := by
  match l with
  | [] => rfl
  | x :: xs =>
      rw [argminIdx, h x (List.mem_cons_self _ _)]
      exact argminGo_const_top key xs 1 0 (fun y hy => h y (List.mem_cons_of_mem _ hy))

theorem modifyIdx_length {α : Type} (f : α → α) :
    ∀ (n : ℕ) (l : List α), (modifyIdx f n l).length = l.length
  | n, [] => by cases n <;> rfl
  | 0, _ :: _ => rfl
  | n + 1, x :: xs => by
      rw [modifyIdx, List.length_cons, List.length_cons, modifyIdx_length f n xs]

theorem mem_modifyIdx {α : Type} (f : α → α) :
    ∀ (n : ℕ) (l : List α) (y : α), y ∈ modifyIdx f n l →
      y ∈ l ∨ ∃ x, x ∈ l ∧ y = f x
  | n, [], y, h => by cases n <;> exact absurd h (List.not_mem_nil y)
  | 0, x :: xs, y, h => by
      rcases List.mem_cons.1 h with h | h
      · exact Or.inr ⟨x, List.mem_cons_self _ _, h⟩
      · exact Or.inl (List.mem_cons_of_mem _ h)
  | n + 1, x :: xs, y, h => by
      rcases List.mem_cons.1 h with h | h
      · exact Or.inl (h ▸ List.mem_cons_self _ _)
      · rcases mem_modifyIdx f n xs y h with h | ⟨z, hz, hy⟩
        · exact Or.inl (List.mem_cons_of_mem _ h)
        · exact Or.inr ⟨z, List.mem_cons_of_mem _ hz, hy⟩

theorem rescue_length (fb : ℚ) (rs : List RaceEntry) : (rescue fb rs).length = rs.length := by
  unfold rescue
  split_ifs
  · rw [modifyIdx_length]
  · rfl

theorem assignPositions_length (rs : List RaceEntry) :
    (assignPositions rs).length = rs.length := by
  simp [assignPositions]

theorem assignPositions_getD (rs : List RaceEntry) (i : ℕ) (hi : i < rs.length) :
    (assignPositions rs).getD i default =
      (if (rs.getD i default).dnf then { rs.getD i default with position := none }
       else { rs.getD i default with
          position := some (List.indexOf i (sortedIdxs rs) + 1) }) := by
  unfold assignPositions
  rw [getD_map_of_lt _ _ i (by simpa using hi), range_getD _ _ hi]

theorem assignPositions_countP_dnf (rs : List RaceEntry) :
    (assignPositions rs).countP (fun r => !r.dnf) = rs.countP (fun r => !r.dnf) := by
  unfold assignPositions
  rw [List.countP_map]
  have : (List.range rs.length).countP
      ((fun r => !r.dnf) ∘ fun i =>
        (if (rs.getD i default).dnf then { rs.getD i default with position := none }
         else { rs.getD i default with
            position := some (List.indexOf i (sortedIdxs rs) + 1) })) =
      (List.range rs.length).countP (fun i => !(rs.getD i default).dnf) := by
    apply List.countP_congr
    intro i _
    by_cases hdnf : (rs.getD i default).dnf
    · rw [Function.comp_apply, if_pos hdnf]
    · rw [Function.comp_apply, if_neg hdnf]
  rw [this]
  exact countP_range_getD rs (fun r => !r.dnf)

/-! ## Claim C1 -/

/-- C1: when simulation marks every vehicle DNF, settlement forces exactly
one vehicle to FINISHED and the other N−1 remain DNF.  Because a finishing
time is recorded only for finishers, in the all-DNF situation no vehicle
has a recorded time, so the minimum-recorded-time selection degenerates to
its roster-order tie-break (the first vehicle) and the fallback applies:
the chosen vehicle receives the fallback draw, which lies in
[distance/3, distance/2]. -/
theorem all_dnf_rescue_forces_one_finisher (raceName : String) (d fee p1 p2 p3 : ℚ)
    (roster : List Car) (preset : String) (draws : ℕ → SimDraws) (fb : ℚ)
    (hne : roster ≠ [])
    (hdnf : ∀ i, i < roster.length →
      (simulate_time_minutes (roster.getD i default).topSpeed (roster.getD i default).accel
        (roster.getD i default).handling (roster.getD i default).reliability
        d preset (draws i)).2 = true)
    (hfb1 : d / 3 ≤ fb) (hfb2 : fb ≤ d / 2) :
    (settleCore raceName d fee p1 p2 p3 roster preset draws fb).results.length =
      roster.length ∧
    (∀ i, i < roster.length →
      ((collectResults d preset roster draws).getD i default).timeMin = none) ∧
    (settleCore raceName d fee p1 p2 p3 roster preset draws fb).results.countP
      (fun r => !r.dnf) = 1 ∧
    ((settleCore raceName d fee p1 p2 p3 roster preset draws fb).results.getD 0
      default).dnf = false ∧
    ((settleCore raceName d fee p1 p2 p3 roster preset draws fb).results.getD 0
      default).timeMin = some fb ∧
    d / 3 ≤ fb ∧ fb ≤ d / 2 ∧
    (∀ i, 1 ≤ i → i < roster.length →
      ((settleCore raceName d fee p1 p2 p3 roster preset draws fb).results.getD i
        default).dnf = true) := by
  have hlenraw : (collectResults d preset roster draws).length = roster.length :=
    collectResults_length d preset roster draws
  have hall : ∀ r ∈ collectResults d preset roster draws, r.dnf = true := by
    intro r hr
    obtain ⟨i, hi, rfl⟩ := collectResults_mem d preset roster draws r hr
    exact hdnf i hi
  have htime : ∀ r ∈ collectResults d preset roster draws, r.timeMin = none := by
    intro r hr
    obtain ⟨i, hi, rfl⟩ := collectResults_mem d preset roster draws r hr
    show (if (simulate_time_minutes (roster.getD i default).topSpeed
        (roster.getD i default).accel (roster.getD i default).handling
        (roster.getD i default).reliability d preset (draws i)).2 = true then none
      else some (simulate_time_minutes (roster.getD i default).topSpeed
        (roster.getD i default).accel (roster.getD i default).handling
        (roster.getD i default).reliability d preset (draws i)).1) = none
    rw [if_pos (hdnf i hi)]
  have hkey : ∀ r ∈ collectResults d preset roster draws, rescueKey r = ⊤ := by
    intro r hr
    unfold rescueKey
    rw [htime r hr]
  have hallb : (collectResults d preset roster draws).all (fun r => r.dnf) = true :=
    List.all_eq_true.2 (fun r hr => hall r hr)
  have hargmin : argminIdx rescueKey (collectResults d preset roster draws) = 0 :=
    argminIdx_all_top rescueKey _ hkey
  have hrawne : collectResults d preset roster draws ≠ [] := by
    intro hcon
    rw [hcon] at hlenraw
    exact hne (List.length_eq_zero.1 hlenraw.symm)
  obtain ⟨e, rest, hraw⟩ := List.exists_cons_of_ne_nil hrawne
  have hresc : rescue fb (collectResults d preset roster draws) =
      { e with dnf := false, timeMin := some (e.timeMin.getD fb) } :: rest := by
    rw [show rescue fb (collectResults d preset roster draws)
        = modifyIdx (fun r => { r with dnf := false, timeMin := some (r.timeMin.getD fb) })
            (argminIdx rescueKey (collectResults d preset roster draws))
            (collectResults d preset roster draws) from by
      unfold rescue
      rw [if_pos hallb]]
    rw [hargmin, hraw]
    rfl
  have hetime : e.timeMin = none := htime e (hraw ▸ List.mem_cons_self _ _)
  have heforced : ({ e with dnf := false, timeMin := some (e.timeMin.getD fb) } : RaceEntry)
      = { e with dnf := false, timeMin := some fb } := by
    rw [hetime]
    rfl
  have hresc2 : rescue fb (collectResults d preset roster draws) =
      { e with dnf := false, timeMin := some fb } :: rest := by
    rw [hresc, heforced]
  have hresclen : (rescue fb (collectResults d preset roster draws)).length =
      roster.length := by
    rw [rescue_length, hlenraw]
  have hres : (settleCore raceName d fee p1 p2 p3 roster preset draws fb).results =
      assignPositions (rescue fb (collectResults d preset roster draws)) := rfl
  have hreslen : (settleCore raceName d fee p1 p2 p3 roster preset draws fb).results.length =
      roster.length := by
    rw [hres, assignPositions_length, hresclen]
  have hrest : ∀ r ∈ rest, r.dnf = true := by
    intro r hr
    exact hall r (hraw ▸ List.mem_cons_of_mem _ hr)
  refine ⟨hreslen, ?_, ?_, ?_, ?_, hfb1, hfb2, ?_⟩
  · intro i hi
    exact htime _ (getD_mem _ i (hlenraw ▸ hi))
  · rw [hres, assignPositions_countP_dnf, hresc2, List.countP_cons]
    have hz : rest.countP (fun r => !r.dnf) = 0 := by
      rw [List.countP_eq_zero]
      intro r hr
      simp [hrest r hr]
    simp [hz]
  · have h0 : (0 : ℕ) < (rescue fb (collectResults d preset roster draws)).length := by
      rw [hresclen]
      exact Nat.pos_of_ne_zero (fun hcon => hne (List.length_eq_zero.1 hcon))
    rw [hres, assignPositions_getD _ 0 h0, hresc2, List.getD_cons_zero]
    rw [if_neg (by simp)]
  · have h0 : (0 : ℕ) < (rescue fb (collectResults d preset roster draws)).length := by
      rw [hresclen]
      exact Nat.pos_of_ne_zero (fun hcon => hne (List.length_eq_zero.1 hcon))
    rw [hres, assignPositions_getD _ 0 h0, hresc2, List.getD_cons_zero]
    rw [if_neg (by simp)]
  · intro i h1i hi
    match i, h1i with
    | j + 1, _ =>
        have hj : j + 1 < (rescue fb (collectResults d preset roster draws)).length := by
          rw [hresclen]
          exact hi
        rw [hres, assignPositions_getD _ (j + 1) hj, hresc2, List.getD_cons_succ]
        have hrl : roster.length = rest.length + 1 := by
          rw [← hlenraw, hraw]
          rfl
        have hjr : j < rest.length := by omega
        have hjd : (rest.getD j default).dnf = true := hrest _ (getD_mem rest j hjr)
        rw [if_pos hjd]
        exact hjd

/-- Witness for C1: two cars that both fail their reliability trial; the
first is rescued with the fallback time 40 for a 100 km race. -/
theorem all_dnf_rescue_forces_one_finisher_witness :
    (settleCore "Rally" 100 1000 5000 3000 1000
      [⟨1, "Falcon X1", 1, "Falcon", 220, 5.2, 85, 0.92⟩,
       ⟨3, "Storm ZR", 2, "Thunder", 230, 4.9, 78, 0.85⟩]
      "Mixed (default)" (fun _ => ⟨fun _ => 1, 1, 1⟩) 40).results.countP
        (fun r => !r.dnf) = 1 ∧
    ((settleCore "Rally" 100 1000 5000 3000 1000
      [⟨1, "Falcon X1", 1, "Falcon", 220, 5.2, 85, 0.92⟩,
       ⟨3, "Storm ZR", 2, "Thunder", 230, 4.9, 78, 0.85⟩]
      "Mixed (default)" (fun _ => ⟨fun _ => 1, 1, 1⟩) 40).results.getD 0
        default).timeMin = some 40 :=
  ⟨(all_dnf_rescue_forces_one_finisher "Rally" 100 1000 5000 3000 1000
      [⟨1, "Falcon X1", 1, "Falcon", 220, 5.2, 85, 0.92⟩,
       ⟨3, "Storm ZR", 2, "Thunder", 230, 4.9, 78, 0.85⟩]
      "Mixed (default)" (fun _ => ⟨fun _ => 1, 1, 1⟩) 40 (by decide) (by decide)
      (by decide) (by decide)).2.2.1,
   (all_dnf_rescue_forces_one_finisher "Rally" 100 1000 5000 3000 1000
      [⟨1, "Falcon X1", 1, "Falcon", 220, 5.2, 85, 0.92⟩,
       ⟨3, "Storm ZR", 2, "Thunder", 230, 4.9, 78, 0.85⟩]
      "Mixed (default)" (fun _ => ⟨fun _ => 1, 1, 1⟩) 40 (by decide) (by decide)
      (by decide) (by decide)).2.2.2.2.1⟩

/-! ## Ranking lemmas -/

theorem filterMap_ite_none {α β : Type} (p : α → Bool) (f : α → β) :
    ∀ (l : List α),
      l.filterMap (fun a => if p a = true then none else some (f a)) =
        (l.filter (fun a => !p a)).map f
  | [] => rfl
  | x :: l => by
      rcases hp : p x
      · simp [hp, filterMap_ite_none p f l]
      · simp [hp, filterMap_ite_none p f l]

theorem nodup_map_indexOf : ∀ (l : List ℕ), l.Nodup →
    l.map (fun a => List.indexOf a l) = List.range l.length
  | [], _ => rfl
  | x :: xs, h => by
      rw [List.map_cons, List.indexOf_cons_self, List.length_cons, List.range_succ_eq_map]
      have h2 : xs.map (fun a => List.indexOf a (x :: xs)) =
          xs.map (fun a => List.indexOf a xs + 1) := by
        apply List.map_congr_left
        intro a ha
        have hne : x ≠ a := fun hcon => (List.nodup_cons.1 h).1 (hcon ▸ ha)
        rw [List.indexOf_cons_ne _ hne]
      have h3 : xs.map (fun a => List.indexOf a xs + 1) =
          (xs.map (fun a => List.indexOf a xs)).map Nat.succ := by
        rw [List.map_map]
        rfl
      rw [h2, h3, nodup_map_indexOf xs (List.nodup_cons.1 h).2]

theorem finisherIdxs_mem (rs : List RaceEntry) (i : ℕ) :
    i ∈ finisherIdxs rs ↔ i < rs.length ∧ (rs.getD i default).dnf = false := by
  unfold finisherIdxs
  rw [List.mem_filter, List.mem_range]
  constructor
  · rintro ⟨h1, h2⟩
    exact ⟨h1, by simpa using h2⟩
  · rintro ⟨h1, h2⟩
    exact ⟨h1, by simpa using h2⟩

theorem finisherIdxs_nodup (rs : List RaceEntry) : (finisherIdxs rs).Nodup :=
  (List.nodup_range rs.length).filter _

theorem finisherIdxs_length (rs : List RaceEntry) :
    (finisherIdxs rs).length = rs.countP (fun r => !r.dnf) := by
  unfold finisherIdxs
  rw [← List.countP_eq_length_filter]
  exact countP_range_getD rs (fun r => !r.dnf)

theorem sortedIdxs_perm (rs : List RaceEntry) : (sortedIdxs rs).Perm (finisherIdxs rs) :=
  List.perm_insertionSort _ _

theorem sortedIdxs_nodup (rs : List RaceEntry) : (sortedIdxs rs).Nodup :=
  (sortedIdxs_perm rs).symm.nodup (finisherIdxs_nodup rs)

theorem sortedIdxs_sorted (rs : List RaceEntry) :
    (sortedIdxs rs).Sorted (fun i j => timeKey rs i ≤ timeKey rs j) := by
  haveI : IsTotal ℕ (fun i j => timeKey rs i ≤ timeKey rs j) := ⟨fun a b => le_total _ _⟩
  haveI : IsTrans ℕ (fun i j => timeKey rs i ≤ timeKey rs j) :=
    ⟨fun a b c hab hbc => le_trans hab hbc⟩
  exact List.sorted_insertionSort _ _

theorem sortedIdxs_length (rs : List RaceEntry) :
    (sortedIdxs rs).length = rs.countP (fun r => !r.dnf) := by
  unfold sortedIdxs
  rw [List.length_insertionSort]
  exact finisherIdxs_length rs

theorem sortedIdxs_mem (rs : List RaceEntry) (i : ℕ) :
    i ∈ sortedIdxs rs ↔ i < rs.length ∧ (rs.getD i default).dnf = false := by
  rw [(sortedIdxs_perm rs).mem_iff]
  exact finisherIdxs_mem rs i

theorem position_at_sorted_idx (rs : List RaceEntry) (idx : ℕ)
    (hidx : idx < (sortedIdxs rs).length) :
    (sortedIdxs rs).getD idx 0 < rs.length ∧
    (rs.getD ((sortedIdxs rs).getD idx 0) default).dnf = false ∧
    (assignPositions rs).getD ((sortedIdxs rs).getD idx 0) default =
      { rs.getD ((sortedIdxs rs).getD idx 0) default with position := some (idx + 1) } := by
  have hgd : (sortedIdxs rs).getD idx 0 = (sortedIdxs rs)[idx] :=
    List.getD_eq_getElem _ _ hidx
  have hmem : (sortedIdxs rs).getD idx 0 ∈ sortedIdxs rs := by
    rw [hgd]
    exact List.getElem_mem hidx
  obtain ⟨hlt, hdnf⟩ := (sortedIdxs_mem rs _).1 hmem
  have hidxof : List.indexOf ((sortedIdxs rs).getD idx 0) (sortedIdxs rs) = idx := by
    rw [hgd]
    exact List.indexOf_getElem (sortedIdxs_nodup rs) idx hidx
  refine ⟨hlt, hdnf, ?_⟩
  rw [assignPositions_getD rs _ hlt, if_neg (by rw [hdnf]; exact Bool.false_ne_true), hidxof]

theorem assignPositions_pos_perm (rs : List RaceEntry) :
    ((assignPositions rs).filterMap (fun r => r.position)).Perm
      ((List.range (rs.countP (fun r => !r.dnf))).map (fun m => m + 1)) := by
  have h1 : (assignPositions rs).filterMap (fun r => r.position) =
      (List.range rs.length).filterMap (fun i =>
        if (rs.getD i default).dnf = true then none
        else some (List.indexOf i (sortedIdxs rs) + 1)) := by
    unfold assignPositions
    rw [List.filterMap_map]
    apply List.filterMap_congr
    intro i _
    by_cases hdnf : (rs.getD i default).dnf
    · rw [Function.comp_apply, if_pos hdnf, if_pos hdnf]
    · rw [Function.comp_apply, if_neg hdnf, if_neg hdnf]
  have h2 : (List.range rs.length).filterMap (fun i =>
      if (rs.getD i default).dnf = true then none
      else some (List.indexOf i (sortedIdxs rs) + 1)) =
      (finisherIdxs rs).map (fun i => List.indexOf i (sortedIdxs rs) + 1) :=
    filterMap_ite_none (fun i => (rs.getD i default).dnf)
      (fun i => List.indexOf i (sortedIdxs rs) + 1) (List.range rs.length)
  have h3 : ((finisherIdxs rs).map (fun i => List.indexOf i (sortedIdxs rs) + 1)).Perm
      ((sortedIdxs rs).map (fun i => List.indexOf i (sortedIdxs rs) + 1)) :=
    ((sortedIdxs_perm rs).map _).symm
  have h4 : (sortedIdxs rs).map (fun i => List.indexOf i (sortedIdxs rs) + 1) =
      ((sortedIdxs rs).map (fun i => List.indexOf i (sortedIdxs rs))).map (fun m => m + 1) := by
    rw [List.map_map]
    rfl
  have h5 : (sortedIdxs rs).map (fun i => List.indexOf i (sortedIdxs rs)) =
      List.range (sortedIdxs rs).length :=
    nodup_map_indexOf (sortedIdxs rs) (sortedIdxs_nodup rs)
  rw [h1, h2, ← sortedIdxs_length rs]
  exact h3.trans (by rw [h4, h5])

theorem collectResults_time_iff (d : ℚ) (preset : String) (roster : List Car)
    (draws : ℕ → SimDraws) :
    ∀ r ∈ collectResults d preset roster draws, r.timeMin.isSome = !r.dnf := by
  intro r hr
  obtain ⟨i, hi, rfl⟩ := collectResults_mem d preset roster draws r hr
  generalize simulate_time_minutes (roster.getD i default).topSpeed
    (roster.getD i default).accel (roster.getD i default).handling
    (roster.getD i default).reliability d preset (draws i) = md
  rcases md with ⟨t, b⟩
  cases b <;> rfl

theorem rescue_time_iff (fb : ℚ) (rs : List RaceEntry)
    (h : ∀ r ∈ rs, r.timeMin.isSome = !r.dnf) :
    ∀ r ∈ rescue fb rs, r.timeMin.isSome = !r.dnf := by
  intro r hr
  unfold rescue at hr
  split_ifs at hr with hall
  · rcases mem_modifyIdx _ _ _ _ hr with hmem | ⟨x, hx, rfl⟩
    · exact h r hmem
    · rfl
  · exact h r hr

/-! ## Claim C2 -/

/-- C2: after settlement, each vehicle holds a rank position iff it is not
DNF and a finishing time iff it is not DNF, and the positions assigned to
the finishers are exactly the contiguous set {1, ..., finisherCount} with
no duplicates, ordered so that finishing times are non-decreasing by
position. -/
theorem settlement_ranking_invariants (raceName : String) (d fee p1 p2 p3 : ℚ)
    (roster : List Car) (preset : String) (draws : ℕ → SimDraws) (fb : ℚ)
    (hne : roster ≠ []) :
    (∀ r ∈ (settleCore raceName d fee p1 p2 p3 roster preset draws fb).results,
      r.position.isSome = !r.dnf ∧ r.timeMin.isSome = !r.dnf) ∧
    ((settleCore raceName d fee p1 p2 p3 roster preset draws fb).results.filterMap
      (fun r => r.position)).Perm
      ((List.range ((settleCore raceName d fee p1 p2 p3 roster preset
        draws fb).results.countP (fun r => !r.dnf))).map (fun m => m + 1)) ∧
    ((settleCore raceName d fee p1 p2 p3 roster preset draws fb).results.filterMap
      (fun r => r.position)).Nodup ∧
    (∀ a ∈ (settleCore raceName d fee p1 p2 p3 roster preset draws fb).results,
      ∀ b ∈ (settleCore raceName d fee p1 p2 p3 roster preset draws fb).results,
      a.position.isSome = true → b.position.isSome = true →
      a.position.getD 0 ≤ b.position.getD 0 → a.timeMin.getD 0 ≤ b.timeMin.getD 0) := by
  rw [show (settleCore raceName d fee p1 p2 p3 roster preset draws fb).results =
    assignPositions (rescue fb (collectResults d preset roster draws)) from rfl]
  have hiff0 := rescue_time_iff fb _ (collectResults_time_iff d preset roster draws)
  generalize hgen : rescue fb (collectResults d preset roster draws) = rs
  rw [hgen] at hiff0
  haveI : IsRefl ℕ (fun i j => timeKey rs i ≤ timeKey rs j) := ⟨fun a => le_refl _⟩
  refine ⟨?_, ?_, ?_, ?_⟩
  · intro r hr
    obtain ⟨i, hir, rfl⟩ := List.mem_map.1 hr
    have hi : i < rs.length := List.mem_range.1 hir
    have hmem : rs.getD i default ∈ rs := getD_mem rs i hi
    by_cases hdnf : (rs.getD i default).dnf
    · rw [if_pos hdnf]
      refine ⟨?_, ?_⟩
      · rw [show ({ rs.getD i default with position := none } : RaceEntry).dnf
          = (rs.getD i default).dnf from rfl, hdnf]
        rfl
      · rw [show ({ rs.getD i default with position := none } : RaceEntry).timeMin
          = (rs.getD i default).timeMin from rfl,
          show ({ rs.getD i default with position := none } : RaceEntry).dnf
          = (rs.getD i default).dnf from rfl]
        exact hiff0 _ hmem
    · rw [if_neg hdnf]
      rw [Bool.not_eq_true] at hdnf
      refine ⟨?_, ?_⟩
      · rw [show ({ rs.getD i default with
            position := some (List.indexOf i (sortedIdxs rs) + 1) } : RaceEntry).dnf
          = (rs.getD i default).dnf from rfl, hdnf]
        rfl
      · rw [show ({ rs.getD i default with
            position := some (List.indexOf i (sortedIdxs rs) + 1) } : RaceEntry).timeMin
          = (rs.getD i default).timeMin from rfl,
          show ({ rs.getD i default with
            position := some (List.indexOf i (sortedIdxs rs) + 1) } : RaceEntry).dnf
          = (rs.getD i default).dnf from rfl]
        exact hiff0 _ hmem
  · rw [assignPositions_countP_dnf]
    exact assignPositions_pos_perm rs
  · have hperm := assignPositions_pos_perm rs
    have htarget : ((List.range (rs.countP (fun r => !r.dnf))).map (fun m => m + 1)).Nodup :=
      (List.nodup_range _).map (fun a b h => by omega)
    exact hperm.symm.nodup htarget
  · intro a ha b hb hpa hpb hple
    obtain ⟨i, hir, rfl⟩ := List.mem_map.1 ha
    obtain ⟨j, hjr, rfl⟩ := List.mem_map.1 hb
    have hi : i < rs.length := List.mem_range.1 hir
    have hj : j < rs.length := List.mem_range.1 hjr
    by_cases hdi : (rs.getD i default).dnf
    · rw [if_pos hdi] at hpa
      simp at hpa
    · by_cases hdj : (rs.getD j default).dnf
      · rw [if_pos hdj] at hpb
        simp at hpb
      · rw [if_neg hdi] at hple ⊢
        rw [if_neg hdj] at hple ⊢
        have hdi2 : (rs.getD i default).dnf = false := Bool.eq_false_iff.mpr hdi
        have hdj2 : (rs.getD j default).dnf = false := Bool.eq_false_iff.mpr hdj
        have himem : i ∈ sortedIdxs rs := (sortedIdxs_mem rs i).2 ⟨hi, hdi2⟩
        have hjmem : j ∈ sortedIdxs rs := (sortedIdxs_mem rs j).2 ⟨hj, hdj2⟩
        have hlti : List.indexOf i (sortedIdxs rs) < (sortedIdxs rs).length :=
          List.indexOf_lt_length.2 himem
        have hltj : List.indexOf j (sortedIdxs rs) < (sortedIdxs rs).length :=
          List.indexOf_lt_length.2 hjmem
        have hij : List.indexOf i (sortedIdxs rs) ≤ List.indexOf j (sortedIdxs rs) := by
          have := hple
          simp only [Option.getD_some] at this
          omega
        have hrel := (sortedIdxs_sorted rs).rel_get_of_le
          (a := ⟨List.indexOf i (sortedIdxs rs), hlti⟩)
          (b := ⟨List.indexOf j (sortedIdxs rs), hltj⟩) hij
        rw [List.indexOf_get hlti, List.indexOf_get hltj] at hrel
        exact hrel

/-- Witness for C2: a two-car roster where one car finishes and one is
DNF; the finisher positions are a permutation of {1}. -/
theorem settlement_ranking_invariants_witness :
    ((settleCore "Rally" 100 1000 5000 3000 1000
      [⟨1, "Falcon X1", 1, "Falcon", 220, 5.2, 85, 0.92⟩,
       ⟨3, "Storm ZR", 2, "Thunder", 230, 4.9, 78, 0.85⟩]
      "Fast asphalt" (fun i => if i = 0 then ⟨fun _ => 1, 0, 1⟩ else ⟨fun _ => 1, 1, 1⟩)
      40).results.filterMap (fun r => r.position)).Perm
      ((List.range ((settleCore "Rally" 100 1000 5000 3000 1000
        [⟨1, "Falcon X1", 1, "Falcon", 220, 5.2, 85, 0.92⟩,
         ⟨3, "Storm ZR", 2, "Thunder", 230, 4.9, 78, 0.85⟩]
        "Fast asphalt" (fun i => if i = 0 then ⟨fun _ => 1, 0, 1⟩ else ⟨fun _ => 1, 1, 1⟩)
        40).results.countP (fun r => !r.dnf))).map (fun m => m + 1)) :=
  (settlement_ranking_invariants "Rally" 100 1000 5000 3000 1000
    [⟨1, "Falcon X1", 1, "Falcon", 220, 5.2, 85, 0.92⟩,
     ⟨3, "Storm ZR", 2, "Thunder", 230, 4.9, 78, 0.85⟩]
    "Fast asphalt" (fun i => if i = 0 then ⟨fun _ => 1, 0, 1⟩ else ⟨fun _ => 1, 1, 1⟩)
    40 (by decide)).2.1

/-! ## Claim C5 -/

theorem prize_filterMap_sum (raceName : String) (prizes : List ℚ) (rs : List RaceEntry) :
    ∀ l : List ℕ,
      ((l.filterMap (fun idx =>
        if prizes.getD idx 0 > 0 then
          some ({ teamId := (rs.getD ((sortedIdxs rs).getD idx 0) default).teamId,
                  amount := prizes.getD idx 0,
                  reason := Reason.prize (idx + 1) raceName } : Txn)
        else none)).map (fun t => t.amount)).sum =
      (l.map (fun idx => if 0 < prizes.getD idx 0 then prizes.getD idx 0 else 0)).sum
  | [] => rfl
  | x :: l => by
      by_cases h : 0 < prizes.getD x 0
      · rw [List.filterMap_cons_some (by rw [if_pos h]), List.map_cons, List.sum_cons,
          List.map_cons, List.sum_cons, if_pos h, prize_filterMap_sum raceName prizes rs l]
      · rw [List.filterMap_cons_none (by rw [if_neg h]), List.map_cons, List.sum_cons,
          if_neg h, prize_filterMap_sum raceName prizes rs l, zero_add]

/-- C5: prize credits are emitted exactly for the ranks 1..min(3,
finisherCount) whose configured prize is positive, each crediting the team
of the finisher holding that rank with that amount; the total credited is
the sum of those configured prizes and at most 3 payouts ever occur. -/
theorem prize_distribution_correct (raceName : String) (d fee p1 p2 p3 : ℚ)
    (roster : List Car) (preset : String) (draws : ℕ → SimDraws) (fb : ℚ)
    (hne : roster ≠ []) :
    (settleCore raceName d fee p1 p2 p3 roster preset draws fb).prizeTxns.length ≤ 3 ∧
    ((settleCore raceName d fee p1 p2 p3 roster preset draws fb).prizeTxns.map
      (fun t => t.amount)).sum =
      ((List.range (min 3 ((settleCore raceName d fee p1 p2 p3 roster preset
          draws fb).results.countP (fun r => !r.dnf)))).map
        (fun idx => if 0 < [p1, p2, p3].getD idx 0 then [p1, p2, p3].getD idx 0 else 0)).sum ∧
    (∀ idx, idx < min 3 ((settleCore raceName d fee p1 p2 p3 roster preset
        draws fb).results.countP (fun r => !r.dnf)) →
      0 < [p1, p2, p3].getD idx 0 →
      ∃ r ∈ (settleCore raceName d fee p1 p2 p3 roster preset draws fb).results,
        r.position = some (idx + 1) ∧
        ({ teamId := r.teamId, amount := [p1, p2, p3].getD idx 0,
           reason := Reason.prize (idx + 1) raceName } : Txn) ∈
          (settleCore raceName d fee p1 p2 p3 roster preset draws fb).prizeTxns) ∧
    (∀ t ∈ (settleCore raceName d fee p1 p2 p3 roster preset draws fb).prizeTxns,
      ∃ idx, idx < min 3 ((settleCore raceName d fee p1 p2 p3 roster preset
          draws fb).results.countP (fun r => !r.dnf)) ∧
        0 < [p1, p2, p3].getD idx 0 ∧ t.amount = [p1, p2, p3].getD idx 0 ∧
        t.reason = Reason.prize (idx + 1) raceName ∧
        ∃ r ∈ (settleCore raceName d fee p1 p2 p3 roster preset draws fb).results,
          r.position = some (idx + 1) ∧ r.teamId = t.teamId) := by
  rw [show (settleCore raceName d fee p1 p2 p3 roster preset draws fb).prizeTxns =
      prizeTxnsOf raceName [p1, p2, p3]
        (rescue fb (collectResults d preset roster draws)) from rfl,
    show (settleCore raceName d fee p1 p2 p3 roster preset draws fb).results =
      assignPositions (rescue fb (collectResults d preset roster draws)) from rfl]
  generalize rescue fb (collectResults d preset roster draws) = rs
  have hk : min 3 (sortedIdxs rs).length =
      min 3 ((assignPositions rs).countP (fun r => !r.dnf)) := by
    rw [sortedIdxs_length, assignPositions_countP_dnf]
  have hpz : prizeTxnsOf raceName [p1, p2, p3] rs =
      (List.range (min 3 (sortedIdxs rs).length)).filterMap (fun idx =>
        if [p1, p2, p3].getD idx 0 > 0 then
          some ({ teamId := (rs.getD ((sortedIdxs rs).getD idx 0) default).teamId,
                  amount := [p1, p2, p3].getD idx 0,
                  reason := Reason.prize (idx + 1) raceName } : Txn)
        else none) := rfl
  refine ⟨?_, ?_, ?_, ?_⟩
  · rw [hpz]
    calc (List.filterMap _ (List.range (min 3 (sortedIdxs rs).length))).length
        ≤ (List.range (min 3 (sortedIdxs rs).length)).length :=
          List.length_filterMap_le _ _
      _ = min 3 (sortedIdxs rs).length := List.length_range _
      _ ≤ 3 := min_le_left _ _
  · rw [hpz, ← hk]
    exact prize_filterMap_sum raceName [p1, p2, p3] rs _
  · intro idx hidx hpos
    rw [← hk] at hidx
    have hidx2 : idx < (sortedIdxs rs).length := lt_of_lt_of_le hidx (min_le_right _ _)
    obtain ⟨hlt, hdnf, hassign⟩ := position_at_sorted_idx rs idx hidx2
    refine ⟨(assignPositions rs).getD ((sortedIdxs rs).getD idx 0) default, ?_, ?_, ?_⟩
    · apply getD_mem
      rw [assignPositions_length]
      exact hlt
    · rw [hassign]
    · rw [hpz]
      apply List.mem_filterMap.2
      refine ⟨idx, List.mem_range.2 hidx, ?_⟩
      rw [if_pos hpos, hassign]
  · intro t ht
    rw [hpz] at ht
    obtain ⟨idx, hidxmem, heq⟩ := List.mem_filterMap.1 ht
    have hidxlt : idx < min 3 (sortedIdxs rs).length := List.mem_range.1 hidxmem
    by_cases hpos : 0 < [p1, p2, p3].getD idx 0
    · rw [if_pos hpos] at heq
      obtain rfl := Option.some.inj heq
      have hidx2 : idx < (sortedIdxs rs).length := lt_of_lt_of_le hidxlt (min_le_right _ _)
      obtain ⟨hlt, hdnf, hassign⟩ := position_at_sorted_idx rs idx hidx2
      refine ⟨idx, by rw [← hk]; exact hidxlt, hpos, rfl, rfl, ?_⟩
      refine ⟨(assignPositions rs).getD ((sortedIdxs rs).getD idx 0) default, ?_, ?_, ?_⟩
      · apply getD_mem
        rw [assignPositions_length]
        exact hlt
      · rw [hassign]
      · rw [hassign]
    · rw [if_neg hpos] at heq
      exact Option.noConfusion heq

/-- Witness for C5: a settled two-car race emits at most three payouts. -/
theorem prize_distribution_correct_witness :
    (settleCore "Rally" 100 1000 5000 3000 1000
      [⟨1, "Falcon X1", 1, "Falcon", 220, 5.2, 85, 0.92⟩,
       ⟨3, "Storm ZR", 2, "Thunder", 230, 4.9, 78, 0.85⟩]
      "Fast asphalt" (fun i => if i = 0 then ⟨fun _ => 1, 0, 1⟩ else ⟨fun _ => 1, 1, 1⟩)
      40).prizeTxns.length ≤ 3 :=
  (prize_distribution_correct "Rally" 100 1000 5000 3000 1000
    [⟨1, "Falcon X1", 1, "Falcon", 220, 5.2, 85, 0.92⟩,
     ⟨3, "Storm ZR", 2, "Thunder", 230, 4.9, 78, 0.85⟩]
    "Fast asphalt" (fun i => if i = 0 then ⟨fun _ => 1, 0, 1⟩ else ⟨fun _ => 1, 1, 1⟩)
    40 (by decide)).1

end Rally
